import Mathlib

set_option maxRecDepth 100000

/-!
Verification development for the OCI-distribution Terraform registry gateway.

The Go sources are shallowly embedded:
* bytes are modelled as `Fin 256`;
* `encoding/base64` (URL alphabet, padded) and `encoding/binary` big-endian
  64-bit integers are modelled faithfully, including the fact that the
  base64 decoder silently skips carriage-return and line-feed characters;
* `golang.org/x/crypto/nacl/secretbox` is external library code and is
  modelled by its interface contract: `Seal` appends `Overhead = 16` tag
  bytes plus the message, `Open` verifies the tag with the same key and
  nonce and recovers the message, failing on any mismatch;
* the `querysecret`, `ocidist` and `server` packages are translated
  function by function, with `time.Now()` and the random nonce passed as
  explicit parameters, and each `WriteHeader` call recorded in order.
-/

/-- A single octet, as stored in a Go `byte`. -/
abbrev GoByte := Fin 256

/-- Go's conversion of a character to bytes, restricted to the
single-byte (ASCII) case: all strings handled by the claims are ASCII,
where Go's UTF-8 byte string and the character sequence coincide. -/
def charToByte (c : Char) : GoByte := ⟨c.toNat % 256, Nat.mod_lt _ (by norm_num)⟩

/-- Go `[]byte(s)` for ASCII strings. -/
def stringToBytes (s : String) : List GoByte := s.data.map charToByte

/-- Go `string(b)` for byte slices whose bytes are ASCII-compatible. -/
def bytesToString (bs : List GoByte) : String := String.mk (bs.map (fun b => Char.ofNat b.val))

/-- The byte value of the colon separator used by the download handler. -/
def colonByte : GoByte := ⟨58, by norm_num⟩

/-- Character of the URL-safe base64 alphabet at index `n < 64`
(model of `encoding/base64.URLEncoding`). -/
def b64Char (n : Nat) : Char :=
  if n < 26 then Char.ofNat (65 + n)
  else if n < 52 then Char.ofNat (97 + (n - 26))
  else if n < 62 then Char.ofNat (48 + (n - 52))
  else if n = 62 then '-' else '_'

/-- Index of a character in the URL-safe base64 alphabet, `none` when the
character is not in the alphabet (model of the decode table). -/
def b64CharVal (c : Char) : Option Nat :=
  if 65 ≤ c.toNat ∧ c.toNat ≤ 90 then some (c.toNat - 65)
  else if 97 ≤ c.toNat ∧ c.toNat ≤ 122 then some (c.toNat - 97 + 26)
  else if 48 ≤ c.toNat ∧ c.toNat ≤ 57 then some (c.toNat - 48 + 52)
  else if c.toNat = 45 then some 62
  else if c.toNat = 95 then some 63
  else none

/-- Model of base64 encoding with padding: three input bytes become four
alphabet characters; a final group of one or two bytes is padded with
one or two `=` characters (`encoding/base64.Encoding.EncodeToString`). -/
def b64EncodeList : List GoByte → List Char
  | [] => []
  | [b1] => [b64Char (b1.val / 4), b64Char (b1.val % 4 * 16), '=', '=']
  | [b1, b2] =>
      [b64Char (b1.val / 4), b64Char (b1.val % 4 * 16 + b2.val / 16),
       b64Char (b2.val % 16 * 4), '=']
  | b1 :: b2 :: b3 :: rest =>
      b64Char (b1.val / 4) :: b64Char (b1.val % 4 * 16 + b2.val / 16) ::
      b64Char (b2.val % 16 * 4 + b3.val / 64) :: b64Char (b3.val % 64) ::
      b64EncodeList rest

/-- `base64.URLEncoding.EncodeToString`. -/
def b64Encode (bs : List GoByte) : String := String.mk (b64EncodeList bs)

/-- Build a byte from an in-range value produced by the decoder. -/
def mkByte (n : Nat) : GoByte := ⟨n % 256, Nat.mod_lt _ (by norm_num)⟩

/-- Model of base64 decoding of the character stream after newline
stripping: groups of four characters, `=` padding allowed only at the
very end, non-multiple-of-four input rejected. -/
def b64DecodeGroups : List Char → Option (List GoByte)
  | [] => some []
  | c1 :: c2 :: c3 :: c4 :: rest =>
      match b64CharVal c1, b64CharVal c2 with
      | some v1, some v2 =>
        if c3 = '=' then
          if c4 = '=' ∧ rest = [] then some [mkByte (v1 * 4 + v2 / 16)] else none
        else
          match b64CharVal c3 with
          | some v3 =>
            if c4 = '=' then
              if rest = [] then
                some [mkByte (v1 * 4 + v2 / 16), mkByte (v2 % 16 * 16 + v3 / 4)]
              else none
            else
              match b64CharVal c4 with
              | some v4 =>
                (b64DecodeGroups rest).map
                  (fun tail =>
                    mkByte (v1 * 4 + v2 / 16) :: mkByte (v2 % 16 * 16 + v3 / 4) ::
                    mkByte (v3 % 4 * 64 + v4) :: tail)
              | none => none
          | none => none
      | _, _ => none
  | _ => none

/-- `base64.URLEncoding.DecodeString`: the Go decoder ignores carriage
returns and line feeds wherever they appear, then decodes the remaining
characters in groups of four. -/
def b64Decode (s : String) : Option (List GoByte) :=
  b64DecodeGroups (s.data.filter (fun c => decide (c ≠ '\r') && decide (c ≠ '\n')))

/-- `base64.URLEncoding.DecodedLen`: for a padded encoding this is
`n / 4 * 3`, computed from the encoded length alone. -/
def b64DecodedLen (n : Nat) : Nat := n / 4 * 3

/-- `secretbox.Overhead`: the sealed box is this many bytes longer than
the message (the poly1305 authenticator length). -/
def secretboxOverhead : Nat := 16

/-- Executable stand-in for the 16-byte authentication tag of the
external `nacl/secretbox` library. The claims never rely on collision
resistance of the real primitive, only on the interface contract that
opening with the same key and nonce succeeds and that a failed tag check
is reported as a single undifferentiated failure. -/
def macBytes (key nonce msg : List GoByte) : List GoByte :=
  let h := (key ++ nonce ++ msg).foldl (fun a b => (a * 131 + b.val + 7) % 251) 17
  (List.range 16).map (fun i => mkByte (h + i))

/-- Model of `secretbox.Seal` with an empty destination: the returned
bytes are the tag followed by the message, `Overhead + len(msg)` bytes in
total. In `Wrap` the destination already holds the nonce, so the sealed
token bytes are `nonce ++ secretboxSeal key nonce fullMsg`. -/
def secretboxSeal (key nonce msg : List GoByte) : List GoByte :=
  macBytes key nonce msg ++ msg

/-- Model of `secretbox.Open`: fails on a box shorter than the overhead
or on a tag mismatch, with no distinction between the failure causes. -/
def secretboxOpen (key nonce box : List GoByte) : Option (List GoByte) :=
  if box.length < secretboxOverhead then none
  else if box.take 16 = macBytes key nonce (box.drop 16) then some (box.drop 16)
  else none

/-- `binary.Write(&buf, binary.BigEndian, expiration)` for an `int64`:
eight big-endian bytes of the value's two's complement. -/
def intToBE8 (e : Int) : List GoByte :=
  let n := (e % (2 ^ 64 : Int)).toNat
  [mkByte (n / 2 ^ 56), mkByte (n / 2 ^ 48), mkByte (n / 2 ^ 40), mkByte (n / 2 ^ 32),
   mkByte (n / 2 ^ 24), mkByte (n / 2 ^ 16), mkByte (n / 2 ^ 8), mkByte n]

/-- `binary.Read(r, binary.BigEndian, &expirationUnix)` for an `int64`
over the first eight bytes: big-endian value, reinterpreted as a signed
two's-complement integer. -/
def be8ToInt (bs : List GoByte) : Int :=
  let n : Nat := bs.foldl (fun a b => a * 256 + b.val) 0
  if n < 2 ^ 63 then (n : Int) else (n : Int) - 2 ^ 64

/-- `querysecret.nonceLength`. -/
def nonceLength : Nat := 24

/-- `Secreter.Wrap`, with `time.Now().Unix()` passed explicitly as `now`
and the bytes read from the random source passed as `nonce` (the source
errors when the read does not return exactly `nonceLength` bytes). The
sealed plaintext is the 8-byte big-endian expiration `now + 180` followed
by the message, and the token is the URL-safe base64 encoding of
`nonce ++ sealed`. -/
def Secreter.WrapAt (now : Int) (key nonce msg : List GoByte) : Except String String :=
  if nonce.length ≠ nonceLength then .error "nonce has incorrect length"
  else
    .ok (b64Encode (nonce ++ secretboxSeal key nonce (intToBE8 (now + 180) ++ msg)))

/-- Outcome of `Secreter.Unwrap`: a recovered message, a returned error,
or a Go runtime panic (`crash`). -/
inductive UnwrapOutcome
  | ok (msg : List GoByte)
  | err (msg : String)
  | crash (msg : String)
deriving DecidableEq

/-- The tail of `Secreter.Unwrap` after the sealed box has been opened:
read the 8-byte big-endian expiration (an error when fewer than 8 bytes
remain), slice it off, and compare against the current time. -/
def unwrapOpened (now : Int) (ret : List GoByte) : UnwrapOutcome :=
  if ret.length < 8 then .err "missing expiration time"
  else if now > be8ToInt (ret.take 8) then .err "message has expired"
  else .ok (ret.drop 8)

/-- The tail of `Secreter.Unwrap` after base64 decoding: split off the
24-byte nonce and open the remainder. The two `crash` cases model the Go
runtime panics the source can reach: `raw = raw[24:]` on a decoded slice
shorter than 24 bytes, and `make([]byte, 0, len(raw)-secretbox.Overhead)`
with a negative capacity. Both need the decoded length to be smaller
than the `DecodedLen`-based precheck allowed, which the base64 decoder
permits by skipping carriage-return and line-feed characters. -/
def unwrapDecoded (now : Int) (key raw : List GoByte) : UnwrapOutcome :=
  if raw.length < 24 then .crash "slice bounds out of range"
  else if (raw.drop 24).length < secretboxOverhead then .crash "makeslice: cap out of range"
  else
    match secretboxOpen key (raw.take 24) (raw.drop 24) with
    | none => .err "decryption error"
    | some ret => unwrapOpened now ret

/-- `Secreter.Unwrap`, with `time.Now()` passed explicitly as `now`:
check the decoded-length lower bound computed from the encoded length,
base64-decode, then process the decoded bytes. -/
def Secreter.UnwrapAt (now : Int) (key : List GoByte) (wrapped : String) : UnwrapOutcome :=
  if b64DecodedLen wrapped.length < nonceLength + secretboxOverhead then
    .err "message too short"
  else
    match b64Decode wrapped with
    | none => .err "invalid base64 encoding"
    | some raw => unwrapDecoded now key raw

/-- Character class `[a-z0-9]` of the namespace-part pattern, decided on
the byte value as the Go regexp engine does. -/
def isLowerAlnum (c : Char) : Bool :=
  (97 ≤ c.toNat && c.toNat ≤ 122) || (48 ≤ c.toNat && c.toNat ≤ 57)

/-- Separator class `[._-]` of the namespace-part pattern. -/
def isNPSep (c : Char) : Bool := c.toNat = 46 || c.toNat = 95 || c.toNat = 45

/-- Separator class `[+._-]` of the digest-algorithm pattern. -/
def isAlgoSep (c : Char) : Bool := c.toNat = 43 || isNPSep c

/-- First-character class `[a-zA-Z0-9_]` of the reference pattern. -/
def isRefFirst (c : Char) : Bool :=
  (65 ≤ c.toNat && c.toNat ≤ 90) || (97 ≤ c.toNat && c.toNat ≤ 122) ||
  (48 ≤ c.toNat && c.toNat ≤ 57) || c.toNat = 95

/-- Tail-character class `[a-zA-Z0-9._-]` of the reference pattern. -/
def isRefChar (c : Char) : Bool := isRefFirst c || c.toNat = 46 || c.toNat = 45

/-- Character class `[a-zA-Z0-9=_-]` of the digest-encoded pattern. -/
def isEncChar (c : Char) : Bool :=
  (65 ≤ c.toNat && c.toNat ≤ 90) || (97 ≤ c.toNat && c.toNat ≤ 122) ||
  (48 ≤ c.toNat && c.toNat ≤ 57) || c.toNat = 61 || c.toNat = 95 || c.toNat = 45

/-- Recognizer for `[a-z0-9]+([sep][a-z0-9]+)*`, the shared shape of
`namespacePartRe` and `digestAlgorithmRe`: `state` records whether the
previous character was alphanumeric, so that a separator or the end of
the input is currently permitted. An alphanumeric character is always
accepted; a separator only when permitted, and it must be followed by an
alphanumeric run again. -/
def runMatch (sep : Char → Bool) : List Char → Bool → Bool
  | [], state => state
  | c :: rest, state =>
    if isLowerAlnum c then runMatch sep rest true
    else if sep c then state && runMatch sep rest false
    else false

/-- `namespacePartRe`: `^[a-z0-9]+([._-][a-z0-9]+)*$`. -/
def npMatch (l : List Char) : Bool := runMatch isNPSep l false

/-- `digestAlgorithmRe`: `^[a-z0-9]+([+._-][a-z0-9]+)*$`. -/
def algoMatch (l : List Char) : Bool := runMatch isAlgoSep l false

/-- `digestEncodedRe`: `^[a-zA-Z0-9=_-]+$`. -/
def encMatch (l : List Char) : Bool := !l.isEmpty && l.all isEncChar

/-- Splitting a character stream at every occurrence of a separator
character, keeping empty pieces; structural model of Go's
`strings.Split` for the single-character separators the sources use. -/
def splitOnChar (sep : Char) : List Char → List (List Char)
  | [] => [[]]
  | c :: rest =>
    if c = sep then [] :: splitOnChar sep rest
    else
      match splitOnChar sep rest with
      | [] => [[c]]
      | g :: gs => (c :: g) :: gs

/-- `strings.Split(s, sep)` for a one-character separator. -/
def goSplit (s : String) (sep : Char) : List String :=
  (splitOnChar sep s.data).map String.mk

/-- `strings.HasSuffix`. -/
def goHasSuffix (s suffix : String) : Bool := suffix.data.isSuffixOf s.data

/-- `selector[:len(selector)-5]`: strip the five-byte `.json` suffix. -/
def stripJsonSuffix (s : String) : String := String.mk (s.data.take (s.data.length - 5))

/-- `ocidist.ParseNamespacePart`: the parsed value is the input itself. -/
def ParseNamespacePart (s : String) : Option String :=
  if npMatch s.data then some s else none

/-- The parse-every-part loop shared by `ParseNamespace` and
`ociDistNamespaceFromPathSegments`: abort at the first invalid part. -/
def parseNamespaceParts : List String → Option (List String)
  | [] => some []
  | s :: rest =>
    match ParseNamespacePart s with
    | none => none
    | some p =>
      match parseNamespaceParts rest with
      | none => none
      | some ps => some (p :: ps)

/-- `ocidist.ParseNamespace`: empty input is rejected, otherwise every
slash-separated part must parse. -/
def ParseNamespace (s : String) : Option (List String) :=
  if s.length = 0 then none
  else parseNamespaceParts (goSplit s '/')

/-- `Namespace.String`: parts joined by slashes. -/
def namespaceString (ns : List String) : String := String.intercalate "/" ns

/-- Go's `copy(dst, src)`: the first `min |dst| |src|` elements of `dst`
are replaced by those of `src`; the length of `dst` is unchanged. -/
def goCopy {α : Type} (dst src : List α) : List α :=
  src.take (min dst.length src.length) ++ dst.drop (min dst.length src.length)

/-- `Namespace.Append` as written in the `names.go` snapshot:
`make(Namespace, len(ns)+1)` allocates a slice of length `len(ns)+1`
filled with zero-value (empty) parts, `copy` fills the first `len(ns)`
of them, and `append` adds the new part after the leftover empty slot. -/
def Namespace.Append (ns : List String) (part : String) : List String :=
  goCopy (List.replicate (ns.length + 1) "") ns ++ [part]

/-- Modelled from the spec: the revision of `names.go` containing the
variadic `Append` invoked by the handler (`prefix.Append(ret...)`) is not
among the given sources — only the older single-part snapshot and the
variadic call site are. Section 4.1 of the spec: appending returns a new
Namespace with the same parts followed by the given parts, never
mutating the receiver. -/
def Namespace.appendParts (ns parts : List String) : List String := ns ++ parts

/-- `ocidist.ParseReference`: `^[a-zA-Z0-9_][a-zA-Z0-9._-]{0,127}$`. -/
def ParseReference (s : String) : Option String :=
  match s.data with
  | [] => none
  | c :: rest =>
    if isRefFirst c && (decide (rest.length ≤ 127) && rest.all isRefChar) then some s
    else none

/-- Go's `strings.IndexByte`-style first-match index: the index of the
first element satisfying the predicate, or `-1`. -/
def goIndex {α : Type} (p : α → Bool) : List α → Int
  | [] => -1
  | x :: rest =>
    if p x then 0
    else if goIndex p rest = -1 then -1 else goIndex p rest + 1

/-- `ocidist.ParseDigest`: an algorithm, a colon and an encoded value;
a missing colon or a leading colon (`colon < 1`) is rejected. -/
def ParseDigest (s : String) : Option String :=
  let colon := goIndex (fun c => c = ':') s.data
  if colon < 1 then none
  else
    let algo := s.data.take colon.toNat
    let enc := s.data.drop (colon.toNat + 1)
    if algoMatch algo && encMatch enc then some s else none

/-- `Digest.Algorithm`: the text before the first colon (the source
slices at the colon index; identical on the valid digests the type
invariant guarantees). -/
def Digest.Algorithm (d : String) : String := String.mk (d.data.takeWhile (fun c => c ≠ ':'))

/-- `Digest.Encoded`: the text after the first colon. -/
def Digest.Encoded (d : String) : String :=
  String.mk ((d.data.dropWhile (fun c => c ≠ ':')).drop 1)

/-- Decimal digit class. -/
def isDigitChar (c : Char) : Bool := 48 ≤ c.toNat && c.toNat ≤ 57

/-- A decimal number with no superfluous leading zero, as a semantic
version component requires. -/
def parseVersionNum (cs : List Char) : Option Nat :=
  if cs.isEmpty then none
  else if !cs.all isDigitChar then none
  else if decide (1 < cs.length) && cs.headD '0' = '0' then none
  else some (cs.foldl (fun a c => a * 10 + (c.toNat - 48)) 0)

/-- Model of the external go-versions library's `versions.ParseVersion`
on the shapes this gateway exchanges: a strict `MAJOR.MINOR.PATCH`
semantic-version triple of decimal numbers. Strings such as `"1.2"` or
`"not-a-version"` fail to parse; prerelease and build-metadata suffixes
are not exercised by any claim and are omitted. -/
def ParseVersion (s : String) : Option (Nat × Nat × Nat) :=
  match goSplit s '.' with
  | [a, b, c] =>
    match parseVersionNum a.data, parseVersionNum b.data, parseVersionNum c.data with
    | some x, some y, some z => some (x, y, z)
    | _, _, _ => none
  | _ => none

/-- `Version.String` of the parsed version: the canonical dotted form. -/
def versionString (v : Nat × Nat × Nat) : String :=
  toString v.1 ++ "." ++ toString v.2.1 ++ "." ++ toString v.2.2

/-- The error values of `internal/ocidist/errors.go`: the three sentinel
`staticError` constants, the two wrapper types, and the plain
`fmt.Errorf` errors that the client creates inline. -/
inductive OciDistError
  | errBadGateway
  | errUnauthorized
  | errTimeout
  | notFoundError
  | requestError
  | plainError (msg : String)
deriving DecidableEq

/-- A decoded JSON document, as `encoding/json` sees an upstream body. -/
inductive JsonVal
  | null
  | str (s : String)
  | num (n : Int)
  | boolean (b : Bool)
  | arr (items : List JsonVal)
  | obj (fields : List (String × JsonVal))

/-- Body of an upstream HTTP response: JSON, or bytes that fail to
decode as the expected JSON shape at all. -/
inductive UpstreamBody
  | json (v : JsonVal)
  | notJson

/-- Result of `rawClient.Do`: a transport failure, or a response with a
status code and body. -/
inductive TransportResult
  | failed (msg : String)
  | resp (statusCode : Nat) (body : UpstreamBody)

/-- First value bound to a key in a JSON object or a Go map literal. -/
def goMapGet {β : Type} (k : String) : List (String × β) → Option β
  | [] => none
  | (k2, v) :: rest => if k2 = k then some v else goMapGet k rest

/-- `encoding/json` decoding of the tag-listing response struct
(`Tags []string` with field tag `"tags"`): unknown fields are ignored, a
missing or null `tags` field leaves the nil zero value, and a `tags`
field of any non-array type is a decode error. -/
def decodeTagsResp : JsonVal → Option (List String)
  | .obj fields =>
    match goMapGet "tags" fields with
    | none => some []
    | some .null => some []
    | some (.arr items) =>
        items.mapM (fun it => match it with | .str s => some s | _ => none)
    | some _ => none
  | _ => none

/-- `Client.doRequestJSONResp` (client.go lines 205-221): a transport
failure or a body that fails to decode yields a plain `fmt.Errorf`
error; otherwise the decoded value is returned. The response status code
is never examined. -/
def doRequestJSONResp {α : Type} (decode : JsonVal → Option α) :
    TransportResult → Except OciDistError α
  | .failed m => .error (.plainError ("request failed: " ++ m))
  | .resp _statusCode body =>
    match body with
    | .notJson => .error (.plainError "response is not in the expected format")
    | .json v =>
      match decode v with
      | none => .error (.plainError "response is not in the expected format")
      | some a => .ok a

/-- `Client.GetNamespaceTags` (client.go lines 117-141), as a function of
the upstream transport result for the tag-listing request: decode the
body, then silently drop tags that fail reference validation. -/
def GetNamespaceTags (tr : TransportResult) : Except OciDistError (List String) :=
  match doRequestJSONResp decodeTagsResp tr with
  | .error e => .error e
  | .ok rawTags => .ok (rawTags.filterMap ParseReference)

/-- A recorder for `http.ResponseWriter`: every `WriteHeader` call is
appended; per `net/http`, only the first written status reaches the
wire and later calls are superfluous. -/
structure GoResponseWriter where
  statuses : List Nat
deriving DecidableEq

/-- `resp.WriteHeader(code)`. -/
def GoResponseWriter.writeHeader (w : GoResponseWriter) (code : Nat) : GoResponseWriter :=
  ⟨w.statuses ++ [code]⟩

/-- `propagateOCIDistError` (server.go lines 184-202): a value switch on
the three sentinel errors with no `return` statements, followed by a
type switch with a default case — so a sentinel match falls through into
the second switch and writes a second status. -/
def propagateOCIDistError (err : OciDistError) (resp : GoResponseWriter) : GoResponseWriter :=
  let resp1 :=
    match err with
    | .errBadGateway => resp.writeHeader 502
    | .errUnauthorized => resp.writeHeader 401
    | .errTimeout => resp.writeHeader 504
    | _ => resp
  match err with
  | .notFoundError => resp1.writeHeader 404
  | .requestError => resp1.writeHeader 502
  | _ => resp1.writeHeader 502

/-- A manifest annotation value: `map[string]any` entries are either
strings or something else (on which the handler's type assertion
yields the empty string). -/
inductive AnnotVal
  | str (s : String)
  | other
deriving DecidableEq

/-- `ocidist.ObjectMeta` (manifest.go): metadata of a config or layer. -/
structure ObjectMeta where
  mediaType : String
  digest : String
  size : Int
  annots : List (String × AnnotVal)
deriving DecidableEq

/-- `ocidist.Manifest` (manifest.go). -/
structure Manifest where
  schemaVersion : Int
  mediaType : String
  config : ObjectMeta
  layers : List ObjectMeta
deriving DecidableEq

/-- `meta.Annotations[key].(string)` with the `, _` form: the string
value, or `""` when absent or not a string. -/
def annotString (annots : List (String × AnnotVal)) (k : String) : String :=
  match goMapGet k annots with
  | some (.str s) => s
  | _ => ""

/-- One upstream-client invocation recorded by the handler model. -/
inductive UpstreamCall
  | getTags (ns : List String)
  | getManifest (ns : List String) (ref : String)
  | getBlob (ns : List String) (digest : String) (authHeader : String)
deriving DecidableEq

/-- One entry of the version-response `archives` object. -/
structure ArchiveEntry where
  url : String
  hashes : List String
deriving DecidableEq

/-- The response body the handler writes, by shape. -/
inductive RespBody
  | advertisePage
  | versionsIndex (versions : List String)
  | archives (entries : List (String × ArchiveEntry))
  | blobStream (headers : List (String × String))
deriving DecidableEq

/-- Everything externally observable about one handled request: the
`WriteHeader` calls in order, the upstream-client invocations in order,
and the body written (if any). -/
structure HandlerResult where
  statuses : List Nat
  calls : List UpstreamCall
  body : Option RespBody
deriving DecidableEq

/-- A handled request either runs to completion or hits a Go runtime
panic inside the handler goroutine. -/
inductive HandlerOutcome
  | normal (r : HandlerResult)
  | crashed (msg : String)
deriving DecidableEq

/-- The per-service configuration record the handler closes over
(config.go `ProviderMirror`). `namePrefixParts` is the configured
`NamePrefix` namespace. -/
structure ProviderMirrorConfig where
  name : String
  originURL : String
  namePrefixParts : List String
  proxyPackages : Bool

/-- The inbound request as the handler reads it: the escaped path, the
raw query string, and the `Authorization` header (`""` when absent). -/
structure MirrorRequest where
  path : String
  rawQuery : String
  authorization : String

/-- The upstream registry's behaviour for this request, supplied as an
oracle: the transport result a tag-listing request would produce, and
the results a manifest fetch or a blob fetch would return. The
`GetManifest` and `GetBlobContent` bodies are not among the given
sources (the client snapshot predates them); only what the handler does
with their results matters to the claims. -/
structure UpstreamEnv where
  tagsTransport : TransportResult
  manifestResult : Except OciDistError Manifest
  blobResult : Except OciDistError (List (String × String))

/-- `ociDistNamespaceFromPathSegments` (server.go lines 169-182): every
segment must parse as a namespace part, and the configured prefix is
extended with the segments. -/
def ociDistNamespaceFromPathSegments (base : List String) (segs : List String) :
    Option (List String) :=
  if segs.isEmpty then none
  else
    match parseNamespaceParts segs with
    | none => none
    | some parts => some (Namespace.appendParts base parts)

/-- `strings.HasPrefix`, structurally. -/
def goStartsWith (s pat : String) : Bool := pat.data.isPrefixOf s.data

/-- The headers copied through on a proxied download: every response
header whose (canonical) name starts with `Content-`. -/
def contentHeaders (hs : List (String × String)) : List (String × String) :=
  hs.filter (fun h => goStartsWith h.1 "Content-")

/-- Go map-literal assignment `m[k] = v`: overwrite or append. -/
def goMapSet {β : Type} (m : List (String × β)) (k : String) (v : β) : List (String × β) :=
  match m with
  | [] => [(k, v)]
  | (k2, v2) :: rest => if k2 = k then (k2, v) :: rest else (k2, v2) :: goMapSet rest k v

/-- `map[string]struct{}` used as a set: insert a key. -/
def goSetAdd (keys : List String) (k : String) : List String :=
  if k ∈ keys then keys else keys ++ [k]

/-- The versions set of the index response (part_000 lines 226-233):
parse each tag as a version, ignore the failures, and key the map by the
parsed version's string form, collapsing duplicates. -/
def versionsSetOf (tags : List String) : List String :=
  tags.foldl
    (fun acc tag =>
      match ParseVersion tag with
      | none => acc
      | some v => goSetAdd acc (versionString v))
    []

/-- The archive URL of one layer (part_000 lines 292-307): when proxying,
the request's own URL with the final segment replaced by `download` and
the wrapped `digest:authorization` token as the query string; otherwise
the direct upstream blob URL. A wrap failure aborts the whole response
with status 500. -/
def archiveEntryURL (cfg : ProviderMirrorConfig) (req : MirrorRequest)
    (key nonce : List GoByte) (now : Int) (nsAddr : List String) (meta : ObjectMeta) :
    Except Unit String :=
  if cfg.proxyPackages then
    match Secreter.WrapAt now key nonce (stringToBytes (meta.digest ++ ":" ++ req.authorization)) with
    | .error _ => .error ()
    | .ok secret =>
        .ok (String.intercalate "/" ((goSplit req.path '/').dropLast ++ ["download"]) ++
          "?" ++ secret)
  else
    .ok (cfg.originURL ++ String.intercalate "/" ["v2", namespaceString nsAddr, "blobs", meta.digest])

/-- The layer loop of the version branch (part_000 lines 284-322): skip
layers of other media types or without a platform annotation, build one
entry per listed platform, and attach the `zh:` hash for sha256
digests. -/
def buildArchives (cfg : ProviderMirrorConfig) (req : MirrorRequest)
    (key nonce : List GoByte) (now : Int) (nsAddr : List String) :
    List ObjectMeta → List (String × ArchiveEntry) → Except Unit (List (String × ArchiveEntry))
  | [], acc => .ok acc
  | meta :: rest, acc =>
    if meta.mediaType ≠ "application/vnd.hashicorp.terraform.provider-package+zip" then
      buildArchives cfg req key nonce now nsAddr rest acc
    else
      let platformsRaw := annotString meta.annots "io.terraform.target-platforms"
      if platformsRaw = "" then buildArchives cfg req key nonce now nsAddr rest acc
      else
        match archiveEntryURL cfg req key nonce now nsAddr meta with
        | .error _ => .error ()
        | .ok url =>
          let entry : ArchiveEntry :=
            ⟨url,
             if Digest.Algorithm meta.digest = "sha256" then
               ["zh:" ++ Digest.Encoded meta.digest]
             else []⟩
          buildArchives cfg req key nonce now nsAddr rest
            ((goSplit platformsRaw ',').foldl (fun m p => goMapSet m p entry) acc)

/-- The tail of the `download` branch after a successful unwrap
(part_000 lines 166-205): split the plaintext at the colon found inside
the digest and the colon after it (`bytes.IndexByte` returning `-1` when
absent), parse the digest, then fetch the blob with the recovered
credential as the Authorization override. -/
def downloadUnwrapped (upstream : UpstreamEnv) (nsAddr : List String)
    (raw : List GoByte) : HandlerOutcome :=
  let firstColon := goIndex (fun b => b = colonByte) raw
  if firstColon = -1 then .normal ⟨[404], [], none⟩
  else
    let secondColon :=
      firstColon + 1 + goIndex (fun b => b = colonByte) (raw.drop (firstColon + 1).toNat)
    if secondColon = -1 then .normal ⟨[404], [], none⟩
    else
      match ParseDigest (bytesToString (raw.take secondColon.toNat)) with
      | none => .normal ⟨[404], [], none⟩
      | some digest =>
        let authHeader := bytesToString (raw.drop (secondColon.toNat + 1))
        match upstream.blobResult with
        | .error e =>
            .normal ⟨(propagateOCIDistError e ⟨[]⟩).statuses,
              [.getBlob nsAddr digest authHeader], none⟩
        | .ok headers =>
            .normal ⟨[200], [.getBlob nsAddr digest authHeader],
              some (.blobStream (contentHeaders headers))⟩

/-- The `download` selector branch (part_000 lines 148-206): require a
query string and unwrap it; an unwrap failure is a bare 404 with no
upstream call, identical for every failure cause, and an unwrap panic
propagates out of the handler. -/
def downloadHandler (key : List GoByte) (now : Int) (upstream : UpstreamEnv)
    (req : MirrorRequest) (nsAddr : List String) : HandlerOutcome :=
  if req.rawQuery.length = 0 then .normal ⟨[404], [], none⟩
  else
    match Secreter.UnwrapAt now key req.rawQuery with
    | .crash m => .crashed m
    | .err _ => .normal ⟨[404], [], none⟩
    | .ok raw => downloadUnwrapped upstream nsAddr raw

/-- The `index` selector branch (part_000 lines 216-245): list the tags
and answer with the versions set, or propagate the classified failure. -/
def indexJsonHandler (upstream : UpstreamEnv) (nsAddr : List String) : HandlerOutcome :=
  match GetNamespaceTags upstream.tagsTransport with
  | .error e =>
      .normal ⟨(propagateOCIDistError e ⟨[]⟩).statuses, [.getTags nsAddr], none⟩
  | .ok tags =>
      .normal ⟨[200], [.getTags nsAddr], some (.versionsIndex (versionsSetOf tags))⟩

/-- The version selector branch (part_000 lines 249-335): the stripped
selector must parse as a version and re-parse as a reference, the
manifest is fetched, its config media type checked, and the archives
object built. -/
def versionJsonHandler (cfg : ProviderMirrorConfig) (key nonce : List GoByte) (now : Int)
    (upstream : UpstreamEnv) (req : MirrorRequest) (nsAddr : List String)
    (selector : String) : HandlerOutcome :=
  match ParseVersion selector with
  | none => .normal ⟨[404], [], none⟩
  | some version =>
    match ParseReference (versionString version) with
    | none => .normal ⟨[404], [], none⟩
    | some tag =>
      match upstream.manifestResult with
      | .error e =>
          .normal ⟨(propagateOCIDistError e ⟨[]⟩).statuses, [.getManifest nsAddr tag], none⟩
      | .ok manifest =>
        if manifest.config.mediaType ≠ "application/vnd.hashicorp.terraform-provider.config.v1+json" then
          .normal ⟨[406], [.getManifest nsAddr tag], none⟩
        else
          match buildArchives cfg req key nonce now nsAddr manifest.layers [] with
          | .error _ => .normal ⟨[500], [.getManifest nsAddr tag], none⟩
          | .ok entries => .normal ⟨[200], [.getManifest nsAddr tag], some (.archives entries)⟩

/-- The selector dispatch at the end of the handler (part_000 lines
144-335): the `download` branch when proxying is enabled, then the
`.json` suffix requirement, then the `index` and version branches. -/
def selectorDispatch (cfg : ProviderMirrorConfig) (key nonce : List GoByte) (now : Int)
    (upstream : UpstreamEnv) (req : MirrorRequest) (nsAddr : List String)
    (selector : String) : HandlerOutcome :=
  if cfg.proxyPackages ∧ selector = "download" then
    downloadHandler key now upstream req nsAddr
  else if ¬ goHasSuffix selector ".json" then .normal ⟨[404], [], none⟩
  else if stripJsonSuffix selector = "index" then indexJsonHandler upstream nsAddr
  else versionJsonHandler cfg key nonce now upstream req nsAddr (stripJsonSuffix selector)

/-- The provider-mirror request handler (part_000 lines 106-336): root
advertisement, segment-count check, namespace validation, remaining
segment-count check, then selector dispatch. `key` is the query-string
secret, `now` the request time, `nonce` the bytes a wrap would draw from
the random source. -/
def providerMirrorHandler (cfg : ProviderMirrorConfig) (key nonce : List GoByte)
    (now : Int) (upstream : UpstreamEnv) (req : MirrorRequest) : HandlerOutcome :=
  let pathParts := goSplit req.path '/' 
  if pathParts.length = 3 ∧ pathParts.getD 2 "" = "" then
    .normal ⟨[200], [], some .advertisePage⟩
  else if pathParts.length < 5 then
    .normal ⟨[404], [], none⟩
  else
    match ociDistNamespaceFromPathSegments cfg.namePrefixParts ((pathParts.drop 2).take 3) with
    | none => .normal ⟨[404], [], none⟩
    | some nsAddr =>
      let remainParts := pathParts.drop 5
      if remainParts.length ≠ 1 then .normal ⟨[404], [], none⟩
      else selectorDispatch cfg key nonce now upstream req nsAddr (remainParts.getD 0 "")

def demoKeyC1 : List GoByte := List.replicate 32 7

def demoNonceC1 : List GoByte := List.replicate 24 3

def demoMsgC1 : List GoByte := stringToBytes "hello!"

def demoTokC1 : String := (Secreter.WrapAt 1000 demoKeyC1 demoNonceC1 demoMsgC1).toOption.getD ""

def demoKeyC6 : List GoByte := List.replicate 32 9

def demoNonceC6 : List GoByte := List.replicate 24 5

def demoMsgC6 : List GoByte := stringToBytes "secret"

def demoTokC6 : String := (Secreter.WrapAt 2000 demoKeyC6 demoNonceC6 demoMsgC6).toOption.getD ""

def crashKey : List GoByte := List.replicate 32 0

def crashToken : String := String.mk (List.replicate 24 '\n' ++ List.replicate 32 'A')

def notFoundTransport : TransportResult :=
  .resp 404 (.json (.obj [("errors", .arr [.obj [("code", .str "NAME_UNKNOWN"),
    ("message", .str "repository name not known to registry")]])]))

def cfgC3 : ProviderMirrorConfig :=
  ⟨"mirror", "http://127.0.0.1:5000/", ["terraform-providers"], false⟩

def reqC3 : MirrorRequest := ⟨"/mirror/a/b/c/index.json", "", ""⟩

def envC3 : UpstreamEnv := ⟨notFoundTransport, .error .notFoundError, .error .notFoundError⟩

def cfgC5 : ProviderMirrorConfig :=
  ⟨"mirror", "http://127.0.0.1:5000/", ["terraform-providers"], false⟩

def reqC5 : MirrorRequest := ⟨"/mirror/a/b/c", "", ""⟩

def envC5 : UpstreamEnv := ⟨.failed "unused", .error .notFoundError, .error .notFoundError⟩

def reqC9 : MirrorRequest := ⟨"/mirror/bad..ns/x/y/index.json", "", ""⟩

def reqC8 : MirrorRequest := ⟨"/mirror/a/b/c/index.json", "", ""⟩

def tagsTransportC8 : TransportResult :=
  .resp 200 (.json (.obj [("name", .str "terraform-providers/a/b/c"),
    ("tags", .arr [.str "1.2.0", .str "1.2", .str "not-a-version", .str "1.2.0"])]))

def envC8 : UpstreamEnv := ⟨tagsTransportC8, .error .notFoundError, .error .notFoundError⟩

def cfgC2 : ProviderMirrorConfig :=
  ⟨"mirror", "http://127.0.0.1:5000/", ["terraform-providers"], true⟩

def demoKeyC2 : List GoByte := List.replicate 32 11

def demoNonceC2 : List GoByte := List.replicate 24 13

def demoTokC2 : String :=
  (Secreter.WrapAt 1000 demoKeyC2 demoNonceC2
    (stringToBytes ("sha256" ++ ":" ++ "abc123" ++ ":" ++ "Bearer xyz"))).toOption.getD ""

def envC2 : UpstreamEnv :=
  ⟨.failed "unused", .error .notFoundError, .ok [("Content-Type", "application/zip")]⟩

def reqC2pos : MirrorRequest := ⟨"/mirror/a/b/c/download", demoTokC2, ""⟩

def reqC2neg : MirrorRequest := ⟨"/mirror/a/b/c/download", "x", ""⟩

theorem b64CharVal_b64Char : ∀ n : Fin 64, b64CharVal (b64Char n.val) = some n.val := by
  decide

theorem b64Char_ne_pad : ∀ n : Fin 64, b64Char n.val ≠ '=' := by decide

theorem b64Char_ne_crlf : ∀ n : Fin 64, b64Char n.val ≠ '\r' ∧ b64Char n.val ≠ '\n' := by
  decide

theorem b64EncodeList_length (bs : List GoByte) :
    (b64EncodeList bs).length = 4 * ((bs.length + 2) / 3) := by
  induction bs using b64EncodeList.induct with
  | case1 => simp [b64EncodeList]
  | case2 b1 => simp [b64EncodeList]
  | case3 b1 b2 => simp [b64EncodeList]
  | case4 b1 b2 b3 rest ih =>
      simp only [b64EncodeList, List.length_cons, ih]
      omega

theorem b64EncodeList_no_crlf (bs : List GoByte) :
    ∀ c ∈ b64EncodeList bs, c ≠ '\r' ∧ c ≠ '\n' := by
  induction bs using b64EncodeList.induct with
  | case1 => intro c hc; simp [b64EncodeList] at hc
  | case2 b1 =>
      simp only [b64EncodeList, List.forall_mem_cons, List.forall_mem_nil]
      refine ⟨b64Char_ne_crlf ⟨b1.val / 4, by omega⟩,
        b64Char_ne_crlf ⟨b1.val % 4 * 16, by omega⟩, by decide, by decide, by simp⟩
  | case3 b1 b2 =>
      simp only [b64EncodeList, List.forall_mem_cons, List.forall_mem_nil]
      refine ⟨b64Char_ne_crlf ⟨b1.val / 4, by omega⟩,
        b64Char_ne_crlf ⟨b1.val % 4 * 16 + b2.val / 16, by omega⟩,
        b64Char_ne_crlf ⟨b2.val % 16 * 4, by omega⟩, by decide, by simp⟩
  | case4 b1 b2 b3 rest ih =>
      simp only [b64EncodeList, List.forall_mem_cons]
      refine ⟨b64Char_ne_crlf ⟨b1.val / 4, by omega⟩,
        b64Char_ne_crlf ⟨b1.val % 4 * 16 + b2.val / 16, by omega⟩,
        b64Char_ne_crlf ⟨b2.val % 16 * 4 + b3.val / 64, by omega⟩,
        b64Char_ne_crlf ⟨b3.val % 64, by omega⟩, ih⟩

theorem take_len_append {α : Type} (l r : List α) : (l ++ r).take l.length = l := by
  induction l with
  | nil => simp
  | cons x xs ih => simp [ih]

theorem drop_len_append {α : Type} (l r : List α) : (l ++ r).drop l.length = r := by
  induction l with
  | nil => simp
  | cons x xs ih => simp [ih]

theorem b64DecodeGroups_encode (bs : List GoByte) :
    b64DecodeGroups (b64EncodeList bs) = some bs := by
  induction bs using b64EncodeList.induct with
  | case1 => rfl
  | case2 b1 =>
      have hlt := b1.isLt
      have h1 : b64CharVal (b64Char (b1.val / 4)) = some (b1.val / 4) :=
        b64CharVal_b64Char ⟨b1.val / 4, by omega⟩
      have h2 : b64CharVal (b64Char (b1.val % 4 * 16)) = some (b1.val % 4 * 16) :=
        b64CharVal_b64Char ⟨b1.val % 4 * 16, by omega⟩
      simp [b64EncodeList, b64DecodeGroups, h1, h2, mkByte, Fin.ext_iff]
      omega
  | case3 b1 b2 =>
      have hlt1 := b1.isLt
      have hlt2 := b2.isLt
      have h1 : b64CharVal (b64Char (b1.val / 4)) = some (b1.val / 4) :=
        b64CharVal_b64Char ⟨b1.val / 4, by omega⟩
      have h2 : b64CharVal (b64Char (b1.val % 4 * 16 + b2.val / 16)) =
          some (b1.val % 4 * 16 + b2.val / 16) :=
        b64CharVal_b64Char ⟨b1.val % 4 * 16 + b2.val / 16, by omega⟩
      have h3 : b64CharVal (b64Char (b2.val % 16 * 4)) = some (b2.val % 16 * 4) :=
        b64CharVal_b64Char ⟨b2.val % 16 * 4, by omega⟩
      have hp3 : b64Char (b2.val % 16 * 4) ≠ '=' := b64Char_ne_pad ⟨b2.val % 16 * 4, by omega⟩
      simp [b64EncodeList, b64DecodeGroups, h1, h2, h3, hp3, mkByte, Fin.ext_iff]
      omega
  | case4 b1 b2 b3 rest ih =>
      have hlt1 := b1.isLt
      have hlt2 := b2.isLt
      have hlt3 := b3.isLt
      have h1 : b64CharVal (b64Char (b1.val / 4)) = some (b1.val / 4) :=
        b64CharVal_b64Char ⟨b1.val / 4, by omega⟩
      have h2 : b64CharVal (b64Char (b1.val % 4 * 16 + b2.val / 16)) =
          some (b1.val % 4 * 16 + b2.val / 16) :=
        b64CharVal_b64Char ⟨b1.val % 4 * 16 + b2.val / 16, by omega⟩
      have h3 : b64CharVal (b64Char (b2.val % 16 * 4 + b3.val / 64)) =
          some (b2.val % 16 * 4 + b3.val / 64) :=
        b64CharVal_b64Char ⟨b2.val % 16 * 4 + b3.val / 64, by omega⟩
      have h4 : b64CharVal (b64Char (b3.val % 64)) = some (b3.val % 64) :=
        b64CharVal_b64Char ⟨b3.val % 64, by omega⟩
      have hp3 : b64Char (b2.val % 16 * 4 + b3.val / 64) ≠ '=' :=
        b64Char_ne_pad ⟨b2.val % 16 * 4 + b3.val / 64, by omega⟩
      have hp4 : b64Char (b3.val % 64) ≠ '=' := b64Char_ne_pad ⟨b3.val % 64, by omega⟩
      simp [b64EncodeList, b64DecodeGroups, h1, h2, h3, h4, hp3, hp4, ih, mkByte,
        Fin.ext_iff]
      omega

theorem b64Decode_encode (bs : List GoByte) : b64Decode (b64Encode bs) = some bs := by
  have hfilter :
      (b64EncodeList bs).filter (fun c => decide (c ≠ '\r') && decide (c ≠ '\n')) =
        b64EncodeList bs := by
    apply List.filter_eq_self.mpr
    intro c hc
    have h := b64EncodeList_no_crlf bs c hc
    simp [h.1, h.2]
  simp only [b64Decode, b64Encode]
  rw [hfilter]
  exact b64DecodeGroups_encode bs

theorem macBytes_length (key nonce msg : List GoByte) :
    (macBytes key nonce msg).length = 16 := by simp [macBytes]

theorem secretboxOpen_seal (key nonce msg : List GoByte) :
    secretboxOpen key nonce (secretboxSeal key nonce msg) = some msg := by
  have h16 := macBytes_length key nonce msg
  have hlen : (secretboxSeal key nonce msg).length = 16 + msg.length := by
    simp [secretboxSeal, h16]
  have htake : (secretboxSeal key nonce msg).take 16 = macBytes key nonce msg := by
    rw [secretboxSeal, ← h16, take_len_append]
  have hdrop : (secretboxSeal key nonce msg).drop 16 = msg := by
    rw [secretboxSeal, ← h16, drop_len_append]
  rw [secretboxOpen, if_neg (by rw [hlen]; simp [secretboxOverhead]), htake, hdrop,
    if_pos rfl]

theorem intToBE8_length (e : Int) : (intToBE8 e).length = 8 := by simp [intToBE8]

theorem be8_fold (m : Nat) :
    List.foldl (fun a b => a * 256 + b.val) 0
      [mkByte (m / 2 ^ 56), mkByte (m / 2 ^ 48), mkByte (m / 2 ^ 40), mkByte (m / 2 ^ 32),
       mkByte (m / 2 ^ 24), mkByte (m / 2 ^ 16), mkByte (m / 2 ^ 8), mkByte m] =
      m % 2 ^ 64 := by
  simp only [List.foldl, mkByte]
  omega

theorem be8ToInt_intToBE8 (e : Int) (h0 : 0 ≤ e) (h1 : e < 2 ^ 63) :
    be8ToInt (intToBE8 e) = e := by
  have hm : e % (2 ^ 64 : Int) = e := Int.emod_eq_of_lt h0 (by omega)
  have hlt : e.toNat < 2 ^ 63 := by omega
  simp only [intToBE8, be8ToInt, hm]
  rw [be8_fold]
  have hmod : e.toNat % 2 ^ 64 = e.toNat := by omega
  rw [hmod, if_pos hlt, Int.toNat_of_nonneg h0]

/-- Unwrapping a freshly wrapped token with the same key either recovers
the message or reports expiry, depending only on how far the clock has
advanced. Shared workhorse for the Secreter claims. -/
theorem unwrapAt_wrapAt (now0 t : Int) (key nonce msg : List GoByte) (tok : String)
    (hn : nonce.length = 24) (h0 : 0 ≤ now0) (h1 : now0 + 180 < 2 ^ 63)
    (htok : Secreter.WrapAt now0 key nonce msg = .ok tok) :
    Secreter.UnwrapAt t key tok =
      (if t > now0 + 180 then .err "message has expired" else .ok msg) := by
  have hn24 : nonce.length = nonceLength := hn
  rw [Secreter.WrapAt, if_neg (by simp [hn24])] at htok
  set full := intToBE8 (now0 + 180) ++ msg with hfull
  have hfullLen : full.length = 8 + msg.length := by
    simp [hfull, intToBE8_length]
  set box := secretboxSeal key nonce full with hbox
  have hboxLen : box.length = 16 + full.length := by
    simp [hbox, secretboxSeal, macBytes_length]
  set bytes := nonce ++ box with hbytes
  have hbytesLen : bytes.length = 24 + box.length := by
    simp [hbytes, hn]
  have htok2 : tok = b64Encode bytes := by
    cases htok
    rfl
  have htokLen : tok.length = 4 * ((bytes.length + 2) / 3) := by
    rw [htok2]
    show (b64EncodeList bytes).length = _
    exact b64EncodeList_length bytes
  have hdec : b64Decode tok = some bytes := by rw [htok2]; exact b64Decode_encode bytes
  have htake : bytes.take 24 = nonce := by rw [hbytes, ← hn, take_len_append]
  have hdrop : bytes.drop 24 = box := by rw [hbytes, ← hn, drop_len_append]
  rw [Secreter.UnwrapAt,
    if_neg (by rw [htokLen]; simp only [b64DecodedLen, nonceLength, secretboxOverhead]; omega),
    hdec]
  show unwrapDecoded t key bytes = _
  rw [unwrapDecoded, if_neg (by omega), hdrop, htake,
    if_neg (by rw [hboxLen]; simp [secretboxOverhead]), hbox, secretboxOpen_seal]
  show unwrapOpened t full = _
  rw [unwrapOpened, if_neg (by rw [hfullLen]; omega)]
  have htake8 : full.take 8 = intToBE8 (now0 + 180) := by
    rw [hfull, ← intToBE8_length (now0 + 180), take_len_append]
  have hdrop8 : full.drop 8 = msg := by
    rw [hfull, ← intToBE8_length (now0 + 180), drop_len_append]
  rw [htake8, hdrop8, be8ToInt_intToBE8 _ (by omega) h1]

theorem parseNamespaceParts_none (l : List String)
    (h : ∃ s ∈ l, ParseNamespacePart s = none) : parseNamespaceParts l = none := by
  induction l with
  | nil => simp at h
  | cons x xs ih =>
      rcases h with ⟨s, hs, hbad⟩
      rcases List.mem_cons.mp hs with rfl | hmem
      · simp [parseNamespaceParts, hbad]
      · rw [parseNamespaceParts]
        cases hx : ParseNamespacePart x with
        | none => rfl
        | some p => rw [ih ⟨s, hmem, hbad⟩]

theorem parseNamespaceParts_valid (l : List String)
    (h : ∀ s ∈ l, ParseNamespacePart s = some s) : parseNamespaceParts l = some l := by
  induction l with
  | nil => rfl
  | cons x xs ih =>
      rw [parseNamespaceParts, h x (List.mem_cons_self x xs),
        ih (fun s hs => h s (List.mem_cons_of_mem x hs))]

theorem goIndex_no_hit {α : Type} (p : α → Bool) (l : List α) (a : α) (r : List α)
    (hl : ∀ x ∈ l, p x = false) (ha : p a = true) :
    goIndex p (l ++ a :: r) = (l.length : Int) := by
  induction l with
  | nil => simp [goIndex, ha]
  | cons x xs ih =>
      have hx : p x = false := hl x (List.mem_cons_self x xs)
      have ihx := ih (fun y hy => hl y (List.mem_cons_of_mem x hy))
      rw [List.cons_append, goIndex, if_neg (by simp [hx]), ihx,
        if_neg (by omega)]
      simp

theorem goSetAdd_mem (keys : List String) (k v : String) :
    v ∈ goSetAdd keys k ↔ v ∈ keys ∨ v = k := by
  rw [goSetAdd]
  by_cases h : k ∈ keys
  · rw [if_pos h]
    constructor
    · exact fun hv => Or.inl hv
    · rintro (hv | rfl)
      · exact hv
      · exact h
  · rw [if_neg h]
    simp

theorem goSetAdd_nodup (keys : List String) (k : String) (h : keys.Nodup) :
    (goSetAdd keys k).Nodup := by
  rw [goSetAdd]
  by_cases hk : k ∈ keys
  · rwa [if_pos hk]
  · rw [if_neg hk]
    exact h.append (List.nodup_singleton k)
      (fun x hx hxk => hk ((List.mem_singleton.mp hxk) ▸ hx))

theorem versionsFold_mem (l : List String) :
    ∀ (acc : List String) (v : String),
      v ∈ l.foldl
        (fun acc tag =>
          match ParseVersion tag with
          | none => acc
          | some w => goSetAdd acc (versionString w)) acc ↔
      v ∈ acc ∨ ∃ t ∈ l, (ParseVersion t).map versionString = some v := by
  induction l with
  | nil => simp
  | cons tag rest ih =>
      intro acc v
      rw [List.foldl_cons, ih]
      cases htag : ParseVersion tag with
      | none => simp [htag]
      | some w =>
          simp only [htag, goSetAdd_mem, List.mem_cons, Option.map_some]
          constructor
          · rintro ((hv | rfl) | hrest)
            · exact Or.inl hv
            · exact Or.inr ⟨tag, Or.inl rfl, by rw [htag]; rfl⟩
            · rcases hrest with ⟨t, ht, hv⟩
              exact Or.inr ⟨t, Or.inr ht, hv⟩
          · rintro (hv | ⟨t, (rfl | ht), hv⟩)
            · exact Or.inl (Or.inl hv)
            · rw [htag] at hv
              simp at hv
              exact Or.inl (Or.inr hv.symm)
            · exact Or.inr ⟨t, ht, hv⟩

theorem versionsFold_nodup (l : List String) :
    ∀ acc : List String, acc.Nodup →
      (l.foldl
        (fun acc tag =>
          match ParseVersion tag with
          | none => acc
          | some w => goSetAdd acc (versionString w)) acc).Nodup := by
  induction l with
  | nil => exact fun acc h => h
  | cons tag rest ih =>
      intro acc hacc
      rw [List.foldl_cons]
      cases htag : ParseVersion tag with
      | none => simpa [htag] using ih acc hacc
      | some w => simpa [htag] using ih _ (goSetAdd_nodup acc (versionString w) hacc)

theorem versionsSetOf_mem (tags : List String) (v : String) :
    v ∈ versionsSetOf tags ↔ ∃ t ∈ tags, (ParseVersion t).map versionString = some v := by
  rw [versionsSetOf, versionsFold_mem]
  simp

theorem versionsSetOf_nodup (tags : List String) : (versionsSetOf tags).Nodup :=
  versionsFold_nodup tags [] List.nodup_nil

theorem runMatch_chars (sep : Char → Bool) (l : List Char) :
    ∀ state, runMatch sep l state = true → ∀ ch ∈ l, (isLowerAlnum ch || sep ch) = true := by
  induction l with
  | nil => intro state h ch hch; simp at hch
  | cons c rest ih =>
      intro state h ch hch
      rw [runMatch] at h
      by_cases hc : isLowerAlnum c = true
      · rw [if_pos hc] at h
        rcases List.mem_cons.mp hch with rfl | hmem
        · simp [hc]
        · exact ih true h ch hmem
      · rw [if_neg hc] at h
        by_cases hs : sep c = true
        · rw [if_pos hs] at h
          simp only [Bool.and_eq_true] at h
          rcases List.mem_cons.mp hch with rfl | hmem
          · simp [hs]
          · exact ih false h.2 ch hmem
        · rw [if_neg hs] at h
          simp at h

theorem runMatch_ne_nil (sep : Char → Bool) (l : List Char)
    (h : runMatch sep l false = true) : l ≠ [] := by
  intro hnil
  rw [hnil, runMatch] at h
  simp at h

theorem encMatch_chars (l : List Char) (h : encMatch l = true) :
    ∀ ch ∈ l, isEncChar ch = true := by
  rw [encMatch, Bool.and_eq_true, List.all_eq_true] at h
  exact fun ch hch => h.2 ch hch

theorem class_toNat_facts (ch : Char) (h : (isLowerAlnum ch || isAlgoSep ch) = true) :
    ch.toNat < 256 ∧ ch.toNat ≠ 58 := by
  simp only [isLowerAlnum, isAlgoSep, isNPSep, Bool.or_eq_true, Bool.and_eq_true,
    decide_eq_true_eq] at h
  omega

theorem encChar_toNat_facts (ch : Char) (h : isEncChar ch = true) :
    ch.toNat < 256 ∧ ch.toNat ≠ 58 := by
  simp only [isEncChar, Bool.or_eq_true, Bool.and_eq_true, decide_eq_true_eq] at h
  omega

theorem charToByte_ne_colon (ch : Char) (hlt : ch.toNat < 256) (h : ch.toNat ≠ 58) :
    (decide (charToByte ch = colonByte) : Bool) = false := by
  apply decide_eq_false
  intro heq
  have hv : ch.toNat % 256 = 58 := congrArg Fin.val heq
  omega

theorem char_ne_colon (ch : Char) (h : ch.toNat ≠ 58) :
    (decide (ch = ':') : Bool) = false := by
  apply decide_eq_false
  intro heq
  subst heq
  exact h rfl

theorem map_byte_chars (l : List Char) (h : ∀ ch ∈ l, ch.toNat < 256) :
    (l.map charToByte).map (fun b => Char.ofNat b.val) = l := by
  induction l with
  | nil => rfl
  | cons c cs ih =>
      simp only [List.map_cons, List.cons.injEq]
      refine ⟨?_, ih (fun ch hch => h ch (List.mem_cons_of_mem c hch))⟩
      show Char.ofNat (c.toNat % 256) = c
      rw [Nat.mod_eq_of_lt (h c (List.mem_cons_self c cs))]
      exact Char.ofNat_toNat c

theorem bytesToString_map (l : List Char) (h : ∀ ch ∈ l, ch.toNat < 256) :
    bytesToString (l.map charToByte) = String.mk l := by
  unfold bytesToString
  rw [map_byte_chars l h]

theorem handler_six_segments (cfg : ProviderMirrorConfig) (key nonce : List GoByte)
    (now : Int) (upstream : UpstreamEnv) (req : MirrorRequest)
    (nm a b c sel : String)
    (hpath : goSplit req.path '/' = ["", nm, a, b, c, sel])
    (ha : ParseNamespacePart a = some a) (hb : ParseNamespacePart b = some b)
    (hc : ParseNamespacePart c = some c) :
    providerMirrorHandler cfg key nonce now upstream req =
      selectorDispatch cfg key nonce now upstream req
        (Namespace.appendParts cfg.namePrefixParts [a, b, c]) sel := by
  have hparts : parseNamespaceParts [a, b, c] = some [a, b, c] := by
    apply parseNamespaceParts_valid
    intro s hs
    rcases List.mem_cons.mp hs with rfl | hs2
    · exact ha
    · rcases List.mem_cons.mp hs2 with rfl | hs3
      · exact hb
      · rcases List.mem_cons.mp hs3 with rfl | hs4
        · exact hc
        · simp at hs4
  simp only [providerMirrorHandler, hpath]
  rw [if_neg (by simp), if_neg (by simp)]
  have hseg :
      (((["", nm, a, b, c, sel] : List String).drop 2).take 3) = [a, b, c] := rfl
  rw [hseg, ociDistNamespaceFromPathSegments, if_neg (by simp), hparts]
  rfl

/-- C1: for every byte message `m` and 256-bit key `k`, unwrapping the
result of `Wrap(m)` with the same key returns exactly `m`, provided the
clock at the unwrap call is not after the expiration recorded at wrap
time, namely wrap time plus 180 seconds (the wrap-time clock is a Unix
timestamp, so it is nonnegative and far below 2^63 - 180). -/
theorem C1_wrap_unwrap_roundtrip (key nonce msg : List GoByte) (t0 t : Int) (tok : String)
    (hkey : key.length = 32) (hn : nonce.length = 24)
    (h0 : 0 ≤ t0) (h1 : t0 + 180 < 2 ^ 63) (ht : t ≤ t0 + 180)
    (htok : Secreter.WrapAt t0 key nonce msg = .ok tok) :
    Secreter.UnwrapAt t key tok = .ok msg := by
  rw [unwrapAt_wrapAt t0 t key nonce msg tok hn h0 h1 htok, if_neg (by omega)]

theorem C1_wrap_unwrap_roundtrip_witness :
    demoKeyC1.length = 32 ∧ demoNonceC1.length = 24 ∧ (0 : Int) ≤ 1000 ∧
      (1000 : Int) + 180 < 2 ^ 63 ∧ (1100 : Int) ≤ 1000 + 180 ∧
      Secreter.WrapAt 1000 demoKeyC1 demoNonceC1 demoMsgC1 = .ok demoTokC1 ∧
      Secreter.UnwrapAt 1100 demoKeyC1 demoTokC1 = .ok demoMsgC1 :=
  ⟨by decide, by decide, by norm_num, by norm_num, by norm_num, by rfl,
   C1_wrap_unwrap_roundtrip demoKeyC1 demoNonceC1 demoMsgC1 1000 1100 demoTokC1
     (by decide) (by decide) (by norm_num) (by norm_num) (by norm_num) (by rfl)⟩

/-- C6: `Wrap` seals an 8-byte big-endian Unix timestamp equal to the
wrap-time clock plus 180 seconds in front of the message (visible by
base64-decoding the token, splitting off the nonce and opening the box),
and `Unwrap` of that token fails with the expiry error whenever the
clock at the unwrap call has advanced past that expiration time. -/
theorem C6_wrap_timestamp_and_expiry (key nonce msg : List GoByte) (t0 : Int) (tok : String)
    (hn : nonce.length = 24) (h0 : 0 ≤ t0) (h1 : t0 + 180 < 2 ^ 63)
    (htok : Secreter.WrapAt t0 key nonce msg = .ok tok) :
    (∃ sealed, b64Decode tok = some (nonce ++ sealed) ∧
        secretboxOpen key nonce sealed = some (intToBE8 (t0 + 180) ++ msg)) ∧
    ∀ t : Int, t0 + 180 < t → Secreter.UnwrapAt t key tok = .err "message has expired" := by
  constructor
  · rw [Secreter.WrapAt, if_neg (by simp [hn, nonceLength])] at htok
    cases htok
    exact ⟨secretboxSeal key nonce (intToBE8 (t0 + 180) ++ msg),
      b64Decode_encode _, secretboxOpen_seal _ _ _⟩
  · intro t htlate
    rw [unwrapAt_wrapAt t0 t key nonce msg tok hn h0 h1 htok, if_pos (by omega)]

theorem C6_wrap_timestamp_and_expiry_witness :
    demoNonceC6.length = 24 ∧ (0 : Int) ≤ 2000 ∧ (2000 : Int) + 180 < 2 ^ 63 ∧
      Secreter.WrapAt 2000 demoKeyC6 demoNonceC6 demoMsgC6 = .ok demoTokC6 ∧
      ((∃ sealed, b64Decode demoTokC6 = some (demoNonceC6 ++ sealed) ∧
          secretboxOpen demoKeyC6 demoNonceC6 sealed =
            some (intToBE8 (2000 + 180) ++ demoMsgC6)) ∧
        ∀ t : Int, 2000 + 180 < t →
          Secreter.UnwrapAt t demoKeyC6 demoTokC6 = .err "message has expired") :=
  ⟨by decide, by norm_num, by norm_num, by rfl,
   C6_wrap_timestamp_and_expiry demoKeyC6 demoNonceC6 demoMsgC6 2000 demoTokC6
     (by decide) (by norm_num) (by norm_num) (by rfl)⟩

/-- C10 (refuted by the code): `Unwrap` is not total. The precheck
compares `DecodedLen` of the encoded length (here 42 ≥ 40, so it
passes), but the base64 decoder skips the 24 line-feed characters and
returns only 24 bytes, so after slicing off the 24-byte nonce the source
calls `make([]byte, 0, len(raw)-secretbox.Overhead)` with capacity
`0 - 16 < 0`: a runtime panic, not an error return. -/
theorem C10_unwrap_can_crash :
    crashToken.length = 56 ∧
    b64DecodedLen crashToken.length = 42 ∧
    b64Decode crashToken = some (List.replicate 24 0) ∧
    Secreter.UnwrapAt 0 crashKey crashToken = .crash "makeslice: cap out of range" :=
  ⟨rfl, rfl, by decide, by decide⟩

/-- C4 (refuted by the code): the `names.go` snapshot's `Append` takes a
single part and, because `make(Namespace, len(ns)+1)` allocates length
`len(ns)+1` rather than length `len(ns)` with spare capacity, the result
carries a leftover zero-value (empty, hence invalid) part between the
receiver's parts and the appended part: appending `"foo"` to the
namespace `example` yields parts `["example", "", "foo"]`, not
`["example", "foo"]`. -/
theorem C4_append_leftover_empty_part :
    Namespace.Append ["example"] "foo" = ["example", "", "foo"] := by rfl

/-- C7 (refuted by the code): the first `switch` of
`propagateOCIDistError` has no `return` statements, so for the three
sentinel errors the function calls `WriteHeader` twice — the
taxonomy-mandated status first, then a superfluous 502 from the default
case of the type switch (net/http ignores the second call). Only the
typed and unknown failures get exactly one write. -/
theorem C7_propagate_status_writes :
    (propagateOCIDistError .errUnauthorized ⟨[]⟩).statuses = [401, 502] ∧
    (propagateOCIDistError .errTimeout ⟨[]⟩).statuses = [504, 502] ∧
    (propagateOCIDistError .errBadGateway ⟨[]⟩).statuses = [502, 502] ∧
    (propagateOCIDistError .notFoundError ⟨[]⟩).statuses = [404] ∧
    (propagateOCIDistError .requestError ⟨[]⟩).statuses = [502] ∧
    (propagateOCIDistError (.plainError "boom") ⟨[]⟩).statuses = [502] :=
  ⟨rfl, rfl, rfl, rfl, rfl, rfl⟩

/-- C3 (refuted by the code): `doRequestJSONResp` never examines the
response status code, so when the upstream registry answers a tag-list
request with 404 and the standard OCI JSON error body, the body decodes
into the tags struct (unknown fields ignored, `tags` absent ⇒ nil) and
`GetNamespaceTags` returns a successful empty tag list — not the typed
`NotFoundError` — and the gateway responds 200 with an empty versions
object instead of 404. -/
theorem C3_upstream_not_found_silently_decoded :
    GetNamespaceTags notFoundTransport = .ok [] ∧
    providerMirrorHandler cfgC3 [] [] 0 envC3 reqC3 =
      .normal ⟨[200], [.getTags ["terraform-providers", "a", "b", "c"]],
        some (.versionsIndex [])⟩ :=
  ⟨rfl, by rfl⟩

theorem isEmpty_false_of_mem {α : Type} (l : List α) (a : α) (h : a ∈ l) :
    l.isEmpty = false := by
  cases l with
  | nil => simp at h
  | cons x xs => rfl

/-- C5: for every request below a mirror-service prefix other than the
service root itself, if the path does not split into exactly three
address segments plus exactly one selector segment (a six-element split
counting the leading empty segment and the service name), the handler
writes a single 404 and is terminal: no upstream call, no further
response writes, and no panic (the outcome is a normal response). -/
theorem C5_bad_segment_count_terminal (cfg : ProviderMirrorConfig)
    (key nonce : List GoByte) (now : Int) (upstream : UpstreamEnv) (req : MirrorRequest)
    (hroot : ¬ ((goSplit req.path '/').length = 3 ∧ (goSplit req.path '/').getD 2 "" = ""))
    (hcount : (goSplit req.path '/').length ≠ 6) :
    providerMirrorHandler cfg key nonce now upstream req = .normal ⟨[404], [], none⟩ := by
  simp only [providerMirrorHandler]
  rw [if_neg hroot]
  by_cases h5 : (goSplit req.path '/').length < 5
  · rw [if_pos h5]
  · rw [if_neg h5]
    cases hns : ociDistNamespaceFromPathSegments cfg.namePrefixParts
        (((goSplit req.path '/').drop 2).take 3) with
    | none => rfl
    | some nsAddr =>
        exact if_pos (by rw [List.length_drop]; omega)

theorem C5_bad_segment_count_terminal_witness :
    ¬ ((goSplit reqC5.path '/').length = 3 ∧ (goSplit reqC5.path '/').getD 2 "" = "") ∧
    (goSplit reqC5.path '/').length ≠ 6 ∧
    providerMirrorHandler cfgC5 [] [] 0 envC5 reqC5 = .normal ⟨[404], [], none⟩ :=
  ⟨by decide, by decide,
   C5_bad_segment_count_terminal cfgC5 [] [] 0 envC5 reqC5 (by decide) (by decide)⟩

/-- C9: for every request with at least five path segments whose three
address segments include one failing namespace-part validation (such as
`bad..ns`), the gateway responds 404 and the upstream registry client is
never invoked (the recorded upstream-call list is empty). -/
theorem C9_invalid_address_no_upstream_call (cfg : ProviderMirrorConfig)
    (key nonce : List GoByte) (now : Int) (upstream : UpstreamEnv) (req : MirrorRequest)
    (h5 : 5 ≤ (goSplit req.path '/').length)
    (hbad : ∃ s ∈ ((goSplit req.path '/').drop 2).take 3, ParseNamespacePart s = none) :
    providerMirrorHandler cfg key nonce now upstream req = .normal ⟨[404], [], none⟩ := by
  obtain ⟨s, hs, hsbad⟩ := hbad
  simp only [providerMirrorHandler]
  rw [if_neg (by rintro ⟨h3, _⟩; omega), if_neg (by omega)]
  rw [ociDistNamespaceFromPathSegments,
    if_neg (by rw [isEmpty_false_of_mem _ s hs]; simp),
    parseNamespaceParts_none _ ⟨s, hs, hsbad⟩]

theorem C9_invalid_address_no_upstream_call_witness :
    5 ≤ (goSplit reqC9.path '/').length ∧
    (∃ s ∈ ((goSplit reqC9.path '/').drop 2).take 3, ParseNamespacePart s = none) ∧
    providerMirrorHandler cfgC5 [] [] 0 envC5 reqC9 = .normal ⟨[404], [], none⟩ :=
  ⟨by decide, ⟨"bad..ns", by decide, by decide⟩,
   C9_invalid_address_no_upstream_call cfgC5 [] [] 0 envC5 reqC9 (by decide)
     ⟨"bad..ns", by decide, by decide⟩⟩

/-- C8: for every successful index request the `versions` object has
exactly one entry per distinct parsed semantic-version string among the
upstream tags — membership holds exactly when some tag parses to that
version string, and the key list has no duplicates — with tags that do
not parse dropped; in particular, for upstream tags
`["1.2.0", "1.2", "not-a-version", "1.2.0"]` the versions set is exactly
`{"1.2.0"}`. -/
theorem C8_index_versions_set (cfg : ProviderMirrorConfig) (key nonce : List GoByte)
    (now : Int) (upstream : UpstreamEnv) (req : MirrorRequest)
    (nm a b c : String) (tags : List String)
    (hpath : goSplit req.path '/' = ["", nm, a, b, c, "index.json"])
    (ha : ParseNamespacePart a = some a) (hb : ParseNamespacePart b = some b)
    (hc : ParseNamespacePart c = some c)
    (htags : GetNamespaceTags upstream.tagsTransport = .ok tags) :
    providerMirrorHandler cfg key nonce now upstream req =
      .normal ⟨[200], [.getTags (Namespace.appendParts cfg.namePrefixParts [a, b, c])],
        some (.versionsIndex (versionsSetOf tags))⟩ ∧
    (versionsSetOf tags).Nodup ∧
    (∀ v, v ∈ versionsSetOf tags ↔
      ∃ t ∈ tags, (ParseVersion t).map versionString = some v) ∧
    versionsSetOf ["1.2.0", "1.2", "not-a-version", "1.2.0"] = ["1.2.0"] := by
  refine ⟨?_, versionsSetOf_nodup tags, versionsSetOf_mem tags, by rfl⟩
  rw [handler_six_segments cfg key nonce now upstream req nm a b c "index.json" hpath ha hb hc]
  rw [selectorDispatch, if_neg (by rintro ⟨_, hdl⟩; exact absurd hdl (by decide)),
    if_neg (by decide), if_pos (by decide), indexJsonHandler, htags]

theorem C8_index_versions_set_witness :
    goSplit reqC8.path '/' = ["", "mirror", "a", "b", "c", "index.json"] ∧
    ParseNamespacePart "a" = some "a" ∧ ParseNamespacePart "b" = some "b" ∧
    ParseNamespacePart "c" = some "c" ∧
    GetNamespaceTags envC8.tagsTransport = .ok ["1.2.0", "1.2", "not-a-version", "1.2.0"] ∧
    (providerMirrorHandler cfgC3 [] [] 0 envC8 reqC8 =
        .normal ⟨[200],
          [.getTags (Namespace.appendParts cfgC3.namePrefixParts ["a", "b", "c"])],
          some (.versionsIndex
            (versionsSetOf ["1.2.0", "1.2", "not-a-version", "1.2.0"]))⟩ ∧
      (versionsSetOf ["1.2.0", "1.2", "not-a-version", "1.2.0"]).Nodup ∧
      (∀ v, v ∈ versionsSetOf ["1.2.0", "1.2", "not-a-version", "1.2.0"] ↔
        ∃ t ∈ ["1.2.0", "1.2", "not-a-version", "1.2.0"],
          (ParseVersion t).map versionString = some v) ∧
      versionsSetOf ["1.2.0", "1.2", "not-a-version", "1.2.0"] = ["1.2.0"]) :=
  ⟨by decide, by decide, by decide, by decide, by rfl,
   C8_index_versions_set cfgC3 [] [] 0 envC8 reqC8 "mirror" "a" "b" "c"
     ["1.2.0", "1.2", "not-a-version", "1.2.0"] (by decide) (by decide) (by decide)
     (by decide) (by rfl)⟩

theorem algo_chars_facts (algoS : String) (halgo : algoMatch algoS.data = true) :
    ∀ ch ∈ algoS.data, ch.toNat < 256 ∧ ch.toNat ≠ 58 := fun ch hch =>
  class_toNat_facts ch (runMatch_chars isAlgoSep algoS.data false halgo ch hch)

theorem enc_chars_facts (encS : String) (henc : encMatch encS.data = true) :
    ∀ ch ∈ encS.data, ch.toNat < 256 ∧ ch.toNat ≠ 58 := fun ch hch =>
  encChar_toNat_facts ch (encMatch_chars encS.data henc ch hch)

theorem data_append_colon (algoS encS : String) :
    (algoS ++ ":" ++ encS).data = algoS.data ++ ':' :: encS.data := by
  simp [String.data_append]

theorem ParseDigest_valid (algoS encS : String)
    (halgo : algoMatch algoS.data = true) (henc : encMatch encS.data = true) :
    ParseDigest (algoS ++ ":" ++ encS) = some (algoS ++ ":" ++ encS) := by
  have hfirst : goIndex (fun c => decide (c = ':')) (algoS.data ++ ':' :: encS.data) =
      (algoS.data.length : Int) :=
    goIndex_no_hit _ _ _ _
      (fun ch hch => char_ne_colon ch (algo_chars_facts algoS halgo ch hch).2) (by simp)
  have hlen1 : 0 < algoS.data.length :=
    List.length_pos.mpr (runMatch_ne_nil _ _ halgo)
  have hdrop : (algoS.data ++ ':' :: encS.data).drop (algoS.data.length + 1) = encS.data := by
    rw [show algoS.data ++ ':' :: encS.data = (algoS.data ++ [':']) ++ encS.data by simp]
    rw [show algoS.data.length + 1 = (algoS.data ++ [':']).length by simp]
    exact drop_len_append _ _
  simp only [ParseDigest, data_append_colon, hfirst]
  rw [if_neg (by omega),
    show ((algoS.data.length : Int)).toNat = algoS.data.length by omega,
    take_len_append, hdrop, if_pos (by simp [halgo, henc])]

theorem unwrapAt_empty_ne_ok (now : Int) (key : List GoByte) (qs : String) (raw : List GoByte)
    (h0 : qs.length = 0) (hok : Secreter.UnwrapAt now key qs = .ok raw) : False := by
  rw [Secreter.UnwrapAt, if_pos (by rw [h0]; decide)] at hok
  exact absurd hok (by simp)

/-- C2: on a proxy-enabled mirror service's download selector, a query
string that unwraps to `<digest>:<credential>` (the digest being a valid
`algorithm:encoded` pair) makes the handler invoke `GetBlobContent` with
exactly that digest and exactly that credential as the Authorization
override; a query string whose unwrap returns an error — expired,
tampered, or otherwise malformed — yields the bare 404 result with no
upstream call, the very same result for every failure cause, so the
response reveals no distinction between expired and tampered tokens. -/
theorem C2_download_token_dispatch (cfg : ProviderMirrorConfig) (key nonce : List GoByte)
    (now : Int) (upstream : UpstreamEnv) (nm a b c : String)
    (ha : ParseNamespacePart a = some a) (hb : ParseNamespacePart b = some b)
    (hc : ParseNamespacePart c = some c) (hproxy : cfg.proxyPackages = true) :
    (∀ (req : MirrorRequest) (algoS encS credS : String),
        goSplit req.path '/' = ["", nm, a, b, c, "download"] →
        algoMatch algoS.data = true →
        encMatch encS.data = true →
        (∀ ch ∈ credS.data, ch.toNat < 256) →
        Secreter.UnwrapAt now key req.rawQuery =
          .ok (stringToBytes (algoS ++ ":" ++ encS ++ ":" ++ credS)) →
        ∃ r, providerMirrorHandler cfg key nonce now upstream req = .normal r ∧
          r.calls = [.getBlob (Namespace.appendParts cfg.namePrefixParts [a, b, c])
            (algoS ++ ":" ++ encS) credS]) ∧
    (∀ (req : MirrorRequest) (e : String),
        goSplit req.path '/' = ["", nm, a, b, c, "download"] →
        Secreter.UnwrapAt now key req.rawQuery = .err e →
        providerMirrorHandler cfg key nonce now upstream req =
          .normal ⟨[404], [], none⟩) := by
  constructor
  · intro req algoS encS credS hpath halgo henc hcred hok
    rw [handler_six_segments cfg key nonce now upstream req nm a b c "download" hpath ha hb hc]
    rw [selectorDispatch, if_pos ⟨hproxy, rfl⟩, downloadHandler]
    have hq : ¬ (req.rawQuery.length = 0) := fun h0 => unwrapAt_empty_ne_ok now key _ _ h0 hok
    rw [if_neg hq]
    simp only [hok]
    have hckey : charToByte ':' = colonByte := rfl
    have hraw : stringToBytes (algoS ++ ":" ++ encS ++ ":" ++ credS) =
        algoS.data.map charToByte ++ colonByte ::
          (encS.data.map charToByte ++ colonByte :: credS.data.map charToByte) := by
      simp [stringToBytes, String.data_append, hckey]
    rw [hraw]
    set A := algoS.data.map charToByte with hA
    set E2 := encS.data.map charToByte with hE2
    set C2b := credS.data.map charToByte with hC2b
    have hAnc : ∀ x ∈ A, (decide (x = colonByte) : Bool) = false := by
      intro x hx
      rcases List.mem_map.mp hx with ⟨ch, hch, rfl⟩
      have hf := algo_chars_facts algoS halgo ch hch
      exact charToByte_ne_colon ch hf.1 hf.2
    have hEnc2 : ∀ x ∈ E2, (decide (x = colonByte) : Bool) = false := by
      intro x hx
      rcases List.mem_map.mp hx with ⟨ch, hch, rfl⟩
      have hf := enc_chars_facts encS henc ch hch
      exact charToByte_ne_colon ch hf.1 hf.2
    have hfirst : goIndex (fun b => decide (b = colonByte))
        (A ++ colonByte :: (E2 ++ colonByte :: C2b)) = (A.length : Int) :=
      goIndex_no_hit _ _ _ _ hAnc (by simp)
    have hsecond : goIndex (fun b => decide (b = colonByte))
        (E2 ++ colonByte :: C2b) = (E2.length : Int) :=
      goIndex_no_hit _ _ _ _ hEnc2 (by simp)
    have hdrop1 : (A ++ colonByte :: (E2 ++ colonByte :: C2b)).drop (A.length + 1) =
        E2 ++ colonByte :: C2b := by
      rw [show A ++ colonByte :: (E2 ++ colonByte :: C2b) =
        (A ++ [colonByte]) ++ (E2 ++ colonByte :: C2b) by simp]
      rw [show A.length + 1 = (A ++ [colonByte]).length by simp]
      exact drop_len_append _ _
    have htake2 : (A ++ colonByte :: (E2 ++ colonByte :: C2b)).take (A.length + 1 + E2.length) =
        A ++ colonByte :: E2 := by
      rw [show A ++ colonByte :: (E2 ++ colonByte :: C2b) =
        (A ++ colonByte :: E2) ++ (colonByte :: C2b) by simp]
      rw [show A.length + 1 + E2.length = (A ++ colonByte :: E2).length by simp; omega]
      exact take_len_append _ _
    have hdrop2 : (A ++ colonByte :: (E2 ++ colonByte :: C2b)).drop
        (A.length + 1 + E2.length + 1) = C2b := by
      rw [show A ++ colonByte :: (E2 ++ colonByte :: C2b) =
        ((A ++ colonByte :: E2) ++ [colonByte]) ++ C2b by simp]
      rw [show A.length + 1 + E2.length + 1 = ((A ++ colonByte :: E2) ++ [colonByte]).length
        by simp; omega]
      exact drop_len_append _ _
    have hdstr : bytesToString (A ++ colonByte :: E2) = algoS ++ ":" ++ encS := by
      rw [show A ++ colonByte :: E2 = (algoS.data ++ ':' :: encS.data).map charToByte by
        simp [hA, hE2, hckey]]
      rw [bytesToString_map]
      · rw [show algoS.data ++ ':' :: encS.data = (algoS ++ ":" ++ encS).data from
          (data_append_colon algoS encS).symm]
      · intro ch hch
        rcases List.mem_append.mp hch with h1 | h1
        · exact (algo_chars_facts algoS halgo ch h1).1
        · rcases List.mem_cons.mp h1 with rfl | h2
          · decide
          · exact (enc_chars_facts encS henc ch h2).1
    have hauth : bytesToString C2b = credS := by
      rw [hC2b, bytesToString_map _ hcred]
    simp only [downloadUnwrapped, hfirst]
    rw [if_neg (by omega),
      show ((A.length : Int) + 1).toNat = A.length + 1 by omega, hdrop1, hsecond,
      if_neg (by omega),
      show ((A.length : Int) + 1 + (E2.length : Int)).toNat = A.length + 1 + E2.length
        by omega,
      htake2, hdstr]
    simp only [ParseDigest_valid algoS encS halgo henc]
    rw [hdrop2, hauth]
    cases hblob : upstream.blobResult with
    | error e =>
        exact ⟨⟨(propagateOCIDistError e ⟨[]⟩).statuses,
          [.getBlob (Namespace.appendParts cfg.namePrefixParts [a, b, c])
            (algoS ++ ":" ++ encS) credS], none⟩, rfl, rfl⟩
    | ok headers =>
        exact ⟨⟨[200],
          [.getBlob (Namespace.appendParts cfg.namePrefixParts [a, b, c])
            (algoS ++ ":" ++ encS) credS],
          some (.blobStream (contentHeaders headers))⟩, rfl, rfl⟩
  · intro req e hpath herr
    rw [handler_six_segments cfg key nonce now upstream req nm a b c "download" hpath ha hb hc]
    rw [selectorDispatch, if_pos ⟨hproxy, rfl⟩, downloadHandler]
    by_cases hq : req.rawQuery.length = 0
    · rw [if_pos hq]
    · rw [if_neg hq]
      simp only [herr]

theorem C2_download_token_dispatch_witness :
    ParseNamespacePart "a" = some "a" ∧ ParseNamespacePart "b" = some "b" ∧
    ParseNamespacePart "c" = some "c" ∧ cfgC2.proxyPackages = true ∧
    goSplit reqC2pos.path '/' = ["", "mirror", "a", "b", "c", "download"] ∧
    algoMatch ("sha256" : String).data = true ∧
    encMatch ("abc123" : String).data = true ∧
    (∀ ch ∈ ("Bearer xyz" : String).data, ch.toNat < 256) ∧
    Secreter.UnwrapAt 1100 demoKeyC2 reqC2pos.rawQuery =
      .ok (stringToBytes ("sha256" ++ ":" ++ "abc123" ++ ":" ++ "Bearer xyz")) ∧
    (∃ r, providerMirrorHandler cfgC2 demoKeyC2 demoNonceC2 1100 envC2 reqC2pos =
        .normal r ∧
      r.calls = [.getBlob (Namespace.appendParts cfgC2.namePrefixParts ["a", "b", "c"])
        ("sha256" ++ ":" ++ "abc123") "Bearer xyz"]) ∧
    Secreter.UnwrapAt 1100 demoKeyC2 reqC2neg.rawQuery = .err "message too short" ∧
    providerMirrorHandler cfgC2 demoKeyC2 demoNonceC2 1100 envC2 reqC2neg =
      .normal ⟨[404], [], none⟩ :=
  ⟨by decide, by decide, by decide, rfl, by decide, by decide, by decide, by decide,
   by rfl,
   (C2_download_token_dispatch cfgC2 demoKeyC2 demoNonceC2 1100 envC2 "mirror" "a" "b" "c"
     (by decide) (by decide) (by decide) rfl).1 reqC2pos "sha256" "abc123" "Bearer xyz"
     (by decide) (by decide) (by decide) (by decide) (by rfl),
   by rfl,
   (C2_download_token_dispatch cfgC2 demoKeyC2 demoNonceC2 1100 envC2 "mirror" "a" "b" "c"
     (by decide) (by decide) (by decide) rfl).2 reqC2neg "message too short"
     (by decide) (by rfl)⟩
